import Mathlib

/-!
Shallow embedding of the configuration-registry and motion-dispatch layer of
`s1id_positions.py` (functions `move`, `switch_to`, `add_config`, `change_order`,
`delete_motor`, `delete_config`, `enable_motor`, `disable_motor`).

Python dicts are modelled as insertion-ordered association lists over `String`
keys; Python dynamic values as the inductive `PyVal`; bluesky plans (generators)
as the list of instructions they yield paired with the exception they raise, if
any, after those yields.  Motor devices are records carrying the fields the
embedded functions read (`name`, class name, the `disable` signal value and the
travel limits); the `oregistry` device registry and the `POSITIONS` table (whose
entries come from device modules outside this snippet) are parameters of an
environment record.
-/

/-- A motor device, carrying exactly the attributes read by the embedded code:
its ophyd `name`, its Python class name, the current value of its `disable`
signal, and its travel limits. -/
structure Motor where
  name : String
  cls : String
  disable : Int
  high_limit_travel : ℚ
  low_limit_travel : ℚ
deriving DecidableEq

/-- A Python value as passed to the embedded functions: a string, an int,
a float, or a motor-like object (whose class name is `m.cls`). -/
inductive PyVal where
  | str (s : String)
  | int (n : Int)
  | float (q : ℚ)
  | mot (m : Motor)
deriving DecidableEq

/-- The Python class name of a value, as tested by
`x.__class__.__name__` and `type(x)` in the source. -/
def PyVal.clsName : PyVal → String
  | .str _ => "str"
  | .int _ => "int"
  | .float _ => "float"
  | .mot m => m.cls

/-- Extract the motor object from a value.  Only meaningful when the value is
a `mot`; the fallback is never reached under the class-membership checks of the
embedded code (no real motor class is named str, int or float). -/
def PyVal.asMotor : PyVal → Motor
  | .mot m => m
  | _ => { name := "", cls := "", disable := 0, high_limit_travel := 0, low_limit_travel := 0 }

/-- Numeric value of a Python int or float, as used once a position has passed
the `type(position)` checks. -/
def numVal : PyVal → Option ℚ
  | .int n => some (n : ℚ)
  | .float q => some q
  | _ => none

/-- Exceptions raised by the embedded code. -/
inductive PyError where
  | valueError (msg : String)
  | typeError (msg : String)
  | keyError (msg : String)
deriving DecidableEq

/-- Lookup in an insertion-ordered dict modelled as an association list:
`d[k]` returning `none` where Python would raise `KeyError`. -/
def dlookup {α : Type} : List (String × α) → String → Option α
  | [], _ => none
  | (k0, v0) :: rest, k => if k0 = k then some v0 else dlookup rest k

/-- Python dict assignment `d[k] = v`: updates the value in place when the key
is present (keeping its position) and appends the pair otherwise. -/
def dinsert {α : Type} : List (String × α) → String → α → List (String × α)
  | [], k, v => [(k, v)]
  | (k0, v0) :: rest, k, v => if k0 = k then (k, v) :: rest else (k0, v0) :: dinsert rest k v

/-- Python `del d[k]`: removes the (unique) entry with key `k`. -/
def derase {α : Type} : List (String × α) → String → List (String × α)
  | [], _ => []
  | (k0, v0) :: rest, k => if k0 = k then rest else (k0, v0) :: derase rest k

/-- The key list of a dict, in insertion order. -/
def dkeys {α : Type} (d : List (String × α)) : List String := d.map Prod.fst

/-- Python dict merge `\x7b**a, **b\x7d`: start from `a`, then assign every entry
of `b` in order. -/
def dmerge {α : Type} (a b : List (String × α)) : List (String × α) :=
  b.foldl (fun acc kv => dinsert acc kv.1 kv.2) a

/-- A single configuration: an insertion-ordered map from motor name to the
stored position value. -/
abbrev Config := List (String × PyVal)

/-- The value of the `configs` signal: an insertion-ordered map from
configuration name to configuration. -/
abbrev Configs := List (String × Config)

/-- An instruction yielded by a plan: `bps.mv(motor, position)`,
`bps.mv(configs, CONFIGS)`, or `bps.mv(motor.disable, v)`. -/
inductive Instr where
  | mv (m : Motor) (pos : ℚ)
  | setConfigs (c : Configs)
  | setDisable (motorName : String) (v : Int)
deriving DecidableEq

/-- The outcome of running a plan to completion: the instructions it yielded,
in order, and the exception it raised after them, if any. -/
abbrev PlanRes := List Instr × Option PyError

/-- The `motor_classes` list of the source: every class accepted by `move`. -/
def motor_classes : List String :=
  ["MPEMotor", "AMCIMotor", "PVPositionerSoftDone", "EpicsSignal", "ConicalMotor"]

/-- The classes subject to the travel-limit check in `move`. -/
def limit_classes : List String := ["MPEMotor", "AMCIMotor", "ConicalMotor"]

/-- The class list accepted for motor-object keys by `add_config`,
`change_order` and `delete_motor` (note: it omits ConicalMotor and adds
ApsPssShutterWithStatus, unlike `motor_classes`). -/
def config_classes : List String :=
  ["MPEMotor", "AMCIMotor", "PVPositionerSoftDone", "ApsPssShutterWithStatus", "EpicsSignal"]

/-- The devices and tables external to the snippet: the `oregistry` device
registry (name-indexed) and the static `POSITIONS` named-position table. -/
structure Env where
  oregistry : String → Motor
  POSITIONS : List (String × List (String × ℚ))

/-- First step of the per-pair loop body of `move`: when the motor argument is
a string (its class name is str), replace it by the registry object. -/
def resolveMotorArg (env : Env) (v : PyVal) : PyVal :=
  match v with
  | .str s => .mot (env.oregistry s)
  | _ => v

/-- The body of the `for motor, position in partition(2, args)` loop of `move`
for one pair: either the exception it raises or the single `bps.mv` it yields. -/
def pairStep (env : Env) (mArg pArg : PyVal) : Except PyError Instr :=
  let mval := resolveMotorArg env mArg
  if mval.clsName ∈ motor_classes then
    let m := mval.asMotor
    if mval.clsName = "MPEMotor" ∧ m.disable = 1 then
      .error (.valueError (m.name ++ " is not enabled!"))
    else
      let posR : Except PyError ℚ :=
        match pArg with
        | .str s =>
          match dlookup env.POSITIONS m.name with
          | none => .error (.keyError m.name)
          | some tbl =>
            match dlookup tbl s with
            | none => .error (.keyError s)
            | some q => .ok q
        | .int n => .ok (n : ℚ)
        | .float q => .ok q
        | .mot _ => .error (.typeError "Position type not recognized.")
      match posR with
      | .error e => .error e
      | .ok position =>
        if mval.clsName ∈ limit_classes then
          if position > m.high_limit_travel ∨ position < m.low_limit_travel then
            .error (.valueError ("Position requested for " ++ m.name ++ " is out of limits."))
          else .ok (.mv m position)
        else .ok (.mv m position)
  else
    .error (.typeError ("Motor not recognized as moveable object. Received class " ++ mval.clsName))

/-- The loop of `move` over the motor/position pairs: instructions are yielded
one pair at a time, and an exception stops the loop after the yields already
made. -/
def movePairs (env : Env) : List (PyVal × PyVal) → PlanRes
  | [] => ([], none)
  | (mArg, pArg) :: rest =>
    match pairStep env mArg pArg with
    | .error e => ([], some e)
    | .ok i =>
      let r := movePairs env rest
      (i :: r.1, r.2)

/-- `toolz.partition(2, args)` for an even-length argument list. -/
def pairup : List PyVal → List (PyVal × PyVal)
  | a :: b :: rest => (a, b) :: pairup rest
  | _ => []

/-- The plan `move(*args)` of the source: reject an odd number of arguments,
then process the pairs in order. -/
def move (env : Env) (args : List PyVal) : PlanRes :=
  if args.length % 2 ≠ 0 then
    ([], some (.valueError "Each motor must contain a position to move to."))
  else movePairs env (pairup args)

/-- The loop of `switch_to` over the entries of the chosen configuration: each
iteration looks the motor up in `oregistry` and delegates to `move`; an
exception from `move` stops the loop, keeping the yields already made. -/
def switchMoves (env : Env) : Config → PlanRes
  | [] => ([], none)
  | (motor_name, pos) :: rest =>
    let r1 := move env [.mot (env.oregistry motor_name), pos]
    match r1.2 with
    | some e => (r1.1, some e)
    | none =>
      let r2 := switchMoves env rest
      (r1.1 ++ r2.1, r2.2)

/-- The plan `switch_to(config_name)` of the source, with the current value of
the `configs` signal passed explicitly. -/
def switch_to (env : Env) (CONFIGS : Configs) (config_name : String) : PlanRes :=
  match dlookup CONFIGS config_name with
  | none => ([], some (.keyError ("config_name " ++ config_name ++ " not in CONFIGS.")))
  | some cfg => switchMoves env cfg

/-- One iteration of the formatting loop of `add_config`: the position must be
a float or int (checked first), then a motor-object key of an accepted class is
replaced by the object's name, a string key is kept as-is, and any other key
raises `TypeError`. -/
def formatEntry (motor : PyVal) (position : PyVal) : Except PyError (String × PyVal) :=
  if position.clsName ∈ ["float", "int"] then
    if motor.clsName ∈ config_classes then
      .ok (motor.asMotor.name, position)
    else if motor.clsName = "str" then
      match motor with
      | .str s => .ok (s, position)
      | _ => .error (.typeError "Motor must be an object or string.")
    else
      .error (.typeError "Motor must be an object or string.")
  else
    .error (.typeError "Position must be a float or int.")

/-- The formatting loop of `add_config`, building `formatted_dict` by the
Python dict assignments of the loop body. -/
def formatDict (acc : Config) : List (PyVal × PyVal) → Except PyError Config
  | [] => .ok acc
  | (motor, position) :: rest =>
    match formatEntry motor position with
    | .error e => .error e
    | .ok kv => formatDict (dinsert acc kv.1 kv.2) rest

/-- The second loop of `add_config` in the no-overwrite branch: assign each
formatted entry whose key is not yet present. -/
def mergeKeep (old : Config) (fd : Config) : Config :=
  fd.foldl (fun acc kv => if (dlookup acc kv.1).isSome then acc else dinsert acc kv.1 kv.2) old

/-- The plan `add_config(new_dict, new_name, overwrite)` of the source, with
the current `configs` value passed explicitly; `new_dict` is the item list of
the Python dict argument.  On success the plan yields the single instruction
setting the `configs` signal to the updated dictionary. -/
def add_config (CONFIGS : Configs) (new_dict : List (PyVal × PyVal)) (new_name : String)
    (overwrite : Bool) : PlanRes :=
  match formatDict [] new_dict with
  | .error e => ([], some e)
  | .ok formatted_dict =>
    match dlookup CONFIGS new_name with
    | some old =>
      if overwrite then
        ([.setConfigs (dinsert CONFIGS new_name (dmerge old formatted_dict))], none)
      else
        ([.setConfigs (dinsert CONFIGS new_name (mergeKeep old formatted_dict))], none)
    | none =>
      ([.setConfigs (dinsert CONFIGS new_name formatted_dict)], none)

/-- The argument `new_order` of `change_order`: a Python list, or a value of
any other class (whose class name is recorded). -/
inductive NewOrderArg where
  | list (l : List PyVal)
  | nonlist (cls : String)

/-- Normalisation of one `new_order` element in `change_order`: motor objects
of the accepted classes become their name, strings stay, anything else raises
`TypeError`. -/
def orderName (motor : PyVal) : Except PyError String :=
  if motor.clsName ∈ config_classes then
    .ok motor.asMotor.name
  else if motor.clsName = "str" then
    match motor with
    | .str s => .ok s
    | _ => .error (.typeError "Motor must be an object or string.")
  else
    .error (.typeError "Motor must be an object or string.")

/-- The per-element loop of `change_order`: normalise the element, require it
to be a key of the configuration, and assign it into `ordered_config`. -/
def buildOrdered (cfg : Config) (acc : Config) : List PyVal → Except PyError Config
  | [] => .ok acc
  | v :: rest =>
    match orderName v with
    | .error e => .error e
    | .ok nm =>
      match dlookup cfg nm with
      | none => .error (.valueError "Received unexpected motor. Use add_config to add motors first.")
      | some pos => buildOrdered cfg (dinsert acc nm pos) rest

/-- The plan `change_order(new_order, config_name)` of the source: after the
type, existence and length checks and the per-element loop, the configuration
is deleted and re-assigned as the reordered dict, and the plan yields the
updated `configs` value. -/
def change_order (CONFIGS : Configs) (new_order : NewOrderArg) (config_name : String) : PlanRes :=
  match new_order with
  | .nonlist _ => ([], some (.typeError "new_order must be a list."))
  | .list lst =>
    match dlookup CONFIGS config_name with
    | none => ([], some (.valueError "Received unknown config name."))
    | some cfg =>
      if lst.length ≠ cfg.length then
        ([], some (.valueError "Not all motors are included."))
      else
        match buildOrdered cfg [] lst with
        | .error e => ([], some e)
        | .ok ordered_config =>
          ([.setConfigs (dinsert (derase CONFIGS config_name) config_name ordered_config)], none)

/-- The motor-argument normalisation of `delete_motor`: a string stays, a
motor object of an accepted class becomes its name, anything else raises
`TypeError`. -/
def deleteMotorName (motor : PyVal) : Except PyError String :=
  match motor with
  | .str s => .ok s
  | _ =>
    if motor.clsName ∈ config_classes then .ok motor.asMotor.name
    else .error (.typeError "Not an accepted object type.")

/-- The plan `delete_motor(motor, config_name)` of the source:
`del CONFIGS[config_name][motor_name]` raises `KeyError` when either key is
missing, and otherwise the plan yields the updated `configs` value. -/
def delete_motor (CONFIGS : Configs) (motor : PyVal) (config_name : String) : PlanRes :=
  match deleteMotorName motor with
  | .error e => ([], some e)
  | .ok motor_name =>
    match dlookup CONFIGS config_name with
    | none => ([], some (.keyError config_name))
    | some cfg =>
      match dlookup cfg motor_name with
      | none => ([], some (.keyError motor_name))
      | some _ =>
        ([.setConfigs (dinsert CONFIGS config_name (derase cfg motor_name))], none)

/-- The plan `delete_config(config_name)` of the source:
`del CONFIGS[config_name]` raises `KeyError` when the key is missing, and
otherwise the plan yields the updated `configs` value. -/
def delete_config (CONFIGS : Configs) (config_name : String) : PlanRes :=
  match dlookup CONFIGS config_name with
  | none => ([], some (.keyError config_name))
  | some _ => ([.setConfigs (derase CONFIGS config_name)], none)

/-- The plan `enable_motor(motor)` of the source: for an MPEMotor, yield
`bps.mv(motor.disable, 0)`; raise `ValueError` for any other class. -/
def enable_motor (motor : Motor) : PlanRes :=
  if motor.cls = "MPEMotor" then
    ([.setDisable motor.name 0], none)
  else
    ([], some (.valueError (motor.name ++ " does not have enable/disable PV known to bluesky.")))

/-- The plan `disable_motor(motor)` of the source: for an MPEMotor, yield
`bps.mv(motor.disable, 1)`; raise `ValueError` for any other class. -/
def disable_motor (motor : Motor) : PlanRes :=
  if motor.cls = "MPEMotor" then
    ([.setDisable motor.name 1], none)
  else
    ([], some (.valueError (motor.name ++ " does not have enable/disable PV known to bluesky.")))

/-- Validity of one configuration entry for the success path of `switch_to`:
the registry object for the key is of an accepted motor class, is enabled if it
is an MPEMotor, and the stored position is numeric and within the travel limits
when the class is limit-checked. -/
def entryOk (env : Env) (nm : String) (pos : PyVal) : Bool :=
  let m := env.oregistry nm
  decide ((numVal pos).isSome ∧ m.cls ∈ motor_classes ∧
    ¬(m.cls = "MPEMotor" ∧ m.disable = 1) ∧
    (m.cls ∈ limit_classes →
      m.low_limit_travel ≤ (numVal pos).getD 0 ∧ (numVal pos).getD 0 ≤ m.high_limit_travel))

/-- The formatted key of a dict entry accepted by `add_config`: a string key
stays, a motor-object key becomes the object's name. -/
def fmtName : PyVal → String
  | .str s => s
  | .mot m => m.name
  | .int _ => ""
  | .float _ => ""

/-- Run `pairStep` over a pair list, collecting the instructions, stopping at
the first exception. -/
def stepAll (env : Env) : List (PyVal × PyVal) → Except PyError (List Instr)
  | [] => .ok []
  | p :: rest =>
    match pairStep env p.1 p.2 with
    | .error e => .error e
    | .ok i =>
      match stepAll env rest with
      | .error e => .error e
      | .ok is => .ok (i :: is)

/-- Flatten a pair list back into an argument list for `move`. -/
def flattenPairs (l : List (PyVal × PyVal)) : List PyVal :=
  l.foldr (fun p acc => p.1 :: p.2 :: acc) []

/-- A concrete enabled MPEMotor used by the witnesses. -/
def wMpe : Motor :=
  { name := "wm1", cls := "MPEMotor", disable := 0, high_limit_travel := 10, low_limit_travel := -10 }

/-- A concrete disabled MPEMotor used by the witnesses and counterexamples. -/
def wMpeOff : Motor :=
  { name := "wm2", cls := "MPEMotor", disable := 1, high_limit_travel := 10, low_limit_travel := -10 }

/-- A concrete ConicalMotor used by the witnesses and counterexamples. -/
def wConical : Motor :=
  { name := "wc1", cls := "ConicalMotor", disable := 0, high_limit_travel := 10, low_limit_travel := -10 }

/-- A concrete environment used by the witnesses: every registry name resolves
to an enabled MPEMotor of that name, and the positions table holds one named
position for the motor wm1. -/
def wEnv : Env :=
  { oregistry := fun s =>
      { name := s, cls := "MPEMotor", disable := 0, high_limit_travel := 100, low_limit_travel := -100 },
    POSITIONS := [("wm1", [("in", (3 : ℚ))])] }

/-! Association-list lemmas about the dict operations. -/

theorem dlookup_dinsert_self {α : Type} (d : List (String × α)) (k : String) (v : α) :
    dlookup (dinsert d k v) k = some v := by
  induction d with
  | nil => simp [dinsert, dlookup]
  | cons hd tl ih =>
    obtain ⟨k0, v0⟩ := hd
    by_cases h : k0 = k
    · simp [dinsert, dlookup, h]
    · simp [dinsert, dlookup, h, ih]

theorem dlookup_dinsert_ne {α : Type} (d : List (String × α)) (k k2 : String) (v : α)
    (h : k ≠ k2) : dlookup (dinsert d k v) k2 = dlookup d k2 := by
  induction d with
  | nil => simp [dinsert, dlookup, h]
  | cons hd tl ih =>
    obtain ⟨k0, v0⟩ := hd
    by_cases h0 : k0 = k
    · subst h0
      simp [dinsert, dlookup, h]
    · simp only [dinsert, if_neg h0, dlookup]
      by_cases h2 : k0 = k2
      · simp [h2]
      · simp [h2, ih]

theorem dlookup_eq_none_iff {α : Type} (d : List (String × α)) (k : String) :
    dlookup d k = none ↔ k ∉ dkeys d := by
  induction d with
  | nil => simp [dlookup, dkeys]
  | cons hd tl ih =>
    obtain ⟨k0, v0⟩ := hd
    by_cases h : k0 = k
    · simp [dlookup, dkeys, h]
    · simp [dlookup, dkeys, h, ih, Ne.symm h]

theorem mem_dkeys_dinsert {α : Type} (d : List (String × α)) (k a : String) (v : α) :
    a ∈ dkeys (dinsert d k v) ↔ a ∈ dkeys d ∨ a = k := by
  by_cases h : a = k
  · subst h
    simp only [or_true, iff_true]
    by_contra hmem
    have hn := (dlookup_eq_none_iff (dinsert d a v) a).mpr hmem
    rw [dlookup_dinsert_self] at hn
    exact Option.noConfusion hn
  · simp only [h, or_false]
    have e1 := dlookup_eq_none_iff (dinsert d k v) a
    have e2 := dlookup_eq_none_iff d a
    rw [dlookup_dinsert_ne d k a v (Ne.symm h)] at e1
    exact not_iff_not.mp (e1.symm.trans e2)

theorem dkeys_dinsert_nodup {α : Type} (d : List (String × α)) (k : String) (v : α)
    (h : (dkeys d).Nodup) : (dkeys (dinsert d k v)).Nodup := by
  induction d with
  | nil => simp [dinsert, dkeys]
  | cons hd tl ih =>
    obtain ⟨k0, v0⟩ := hd
    simp only [dkeys, List.map_cons, List.nodup_cons] at h
    by_cases hk : k0 = k
    · subst hk
      simpa [dinsert, dkeys, List.nodup_cons] using h
    · have htl := ih h.2
      simp only [dinsert, if_neg hk, dkeys, List.map_cons, List.nodup_cons]
      refine ⟨?_, htl⟩
      intro hmem
      rcases (mem_dkeys_dinsert tl k k0 v).mp hmem with h1 | h1
      · exact h.1 h1
      · exact hk h1

theorem dlookup_derase_ne {α : Type} (d : List (String × α)) (k k2 : String)
    (h : k ≠ k2) : dlookup (derase d k) k2 = dlookup d k2 := by
  induction d with
  | nil => simp [derase]
  | cons hd tl ih =>
    obtain ⟨k0, v0⟩ := hd
    by_cases h0 : k0 = k
    · subst h0
      simp [derase, dlookup, h]
    · simp only [derase, if_neg h0, dlookup]
      by_cases h2 : k0 = k2
      · simp [h2]
      · simp [h2, ih]

theorem dlookup_derase_self {α : Type} (d : List (String × α)) (k : String)
    (h : (dkeys d).Nodup) : dlookup (derase d k) k = none := by
  induction d with
  | nil => simp [derase, dlookup]
  | cons hd tl ih =>
    obtain ⟨k0, v0⟩ := hd
    simp only [dkeys, List.map_cons, List.nodup_cons] at h
    by_cases h0 : k0 = k
    · subst h0
      simp only [derase, if_pos rfl]
      exact (dlookup_eq_none_iff tl k0).mpr h.1
    · simp [derase, dlookup, h0, ih h.2]

theorem dlookup_dmerge_notin {α : Type} (b a : List (String × α)) (k : String)
    (h : k ∉ dkeys b) : dlookup (dmerge a b) k = dlookup a k := by
  induction b generalizing a with
  | nil => simp [dmerge]
  | cons hd tl ih =>
    obtain ⟨k0, v0⟩ := hd
    simp only [dkeys, List.map_cons, List.mem_cons] at h
    push_neg at h
    have step : dmerge a ((k0, v0) :: tl) = dmerge (dinsert a k0 v0) tl := by
      simp [dmerge]
    rw [step, ih (dinsert a k0 v0) (by simpa [dkeys] using h.2)]
    exact dlookup_dinsert_ne a k0 k v0 (fun he => h.1 he.symm)

theorem dlookup_dmerge_mem {α : Type} (b a : List (String × α)) (k : String) (v : α)
    (hnd : (dkeys b).Nodup) (h : dlookup b k = some v) :
    dlookup (dmerge a b) k = some v := by
  induction b generalizing a with
  | nil => simp [dlookup] at h
  | cons hd tl ih =>
    obtain ⟨k0, v0⟩ := hd
    simp only [dkeys, List.map_cons, List.nodup_cons] at hnd
    have step : dmerge a ((k0, v0) :: tl) = dmerge (dinsert a k0 v0) tl := by
      simp [dmerge]
    by_cases h0 : k0 = k
    · subst h0
      simp only [dlookup, if_true] at h
      obtain rfl : v0 = v := Option.some.inj h
      rw [step, dlookup_dmerge_notin tl (dinsert a k0 v0) k0 hnd.1]
      exact dlookup_dinsert_self a k0 v0
    · simp only [dlookup, if_neg h0] at h
      rw [step]
      exact ih (dinsert a k0 v0) hnd.2 h

theorem dlookup_mergeKeep_mem (a b : Config) (k : String) (v : PyVal)
    (h : dlookup a k = some v) : dlookup (mergeKeep a b) k = some v := by
  induction b generalizing a with
  | nil => simpa [mergeKeep]
  | cons hd tl ih =>
    obtain ⟨k0, v0⟩ := hd
    have step : mergeKeep a ((k0, v0) :: tl)
        = mergeKeep (if (dlookup a k0).isSome then a else dinsert a k0 v0) tl := by
      simp only [mergeKeep, List.foldl_cons]
    rw [step]
    by_cases hs : (dlookup a k0).isSome
    · rw [if_pos hs]
      exact ih a h
    · rw [if_neg hs]
      have hne : k0 ≠ k := by
        intro he
        subst he
        rw [h] at hs
        simp at hs
      refine ih (dinsert a k0 v0) ?_
      rw [dlookup_dinsert_ne a k0 k v0 hne]
      exact h

theorem dlookup_mergeKeep_none (a b : Config) (k : String)
    (h : dlookup a k = none) : dlookup (mergeKeep a b) k = dlookup b k := by
  induction b generalizing a with
  | nil => simpa [mergeKeep, dlookup]
  | cons hd tl ih =>
    obtain ⟨k0, v0⟩ := hd
    have step : mergeKeep a ((k0, v0) :: tl)
        = mergeKeep (if (dlookup a k0).isSome then a else dinsert a k0 v0) tl := by
      simp only [mergeKeep, List.foldl_cons]
    rw [step]
    by_cases hs : (dlookup a k0).isSome
    · have hne : k0 ≠ k := by
        intro he
        subst he
        rw [h] at hs
        simp at hs
      rw [if_pos hs, dlookup, if_neg hne]
      exact ih a h
    · rw [if_neg hs]
      by_cases h0 : k0 = k
      · subst h0
        rw [dlookup, if_pos rfl]
        exact dlookup_mergeKeep_mem (dinsert a k0 v0) tl k0 v0 (dlookup_dinsert_self a k0 v0)
      · rw [dlookup, if_neg h0]
        refine ih (dinsert a k0 v0) ?_
        rw [dlookup_dinsert_ne a k0 k v0 h0]
        exact h

/-! Lemmas about the per-pair behaviour of `move`. -/

theorem limit_classes_subset : ∀ c ∈ limit_classes, c ∈ motor_classes := by decide

theorem pairStep_mot_ok (env : Env) (m : Motor) (pv : PyVal) (q : ℚ)
    (hcls : m.cls ∈ motor_classes)
    (hen : ¬(m.cls = "MPEMotor" ∧ m.disable = 1))
    (hq : numVal pv = some q)
    (hlim : m.cls ∈ limit_classes → ¬(q > m.high_limit_travel ∨ q < m.low_limit_travel)) :
    pairStep env (.mot m) pv = .ok (.mv m q) := by
  cases pv with
  | str s => simp [numVal] at hq
  | mot m2 => simp [numVal] at hq
  | int n =>
    simp only [numVal, Option.some.injEq] at hq
    subst hq
    by_cases hl : m.cls ∈ limit_classes
    · simp [pairStep, resolveMotorArg, PyVal.clsName, PyVal.asMotor, hcls, hen, hl, hlim hl]
    · simp [pairStep, resolveMotorArg, PyVal.clsName, PyVal.asMotor, hcls, hen, hl]
  | float q0 =>
    simp only [numVal, Option.some.injEq] at hq
    subst hq
    by_cases hl : m.cls ∈ limit_classes
    · simp [pairStep, resolveMotorArg, PyVal.clsName, PyVal.asMotor, hcls, hen, hl, hlim hl]
    · simp [pairStep, resolveMotorArg, PyVal.clsName, PyVal.asMotor, hcls, hen, hl]

theorem pairStep_str_ok (env : Env) (m : Motor) (s : String) (tbl : List (String × ℚ)) (q : ℚ)
    (hcls : m.cls ∈ motor_classes)
    (hen : ¬(m.cls = "MPEMotor" ∧ m.disable = 1))
    (htbl : dlookup env.POSITIONS m.name = some tbl)
    (hs : dlookup tbl s = some q)
    (hlim : m.cls ∈ limit_classes → ¬(q > m.high_limit_travel ∨ q < m.low_limit_travel)) :
    pairStep env (.mot m) (.str s) = .ok (.mv m q) := by
  by_cases hl : m.cls ∈ limit_classes
  · simp [pairStep, resolveMotorArg, PyVal.clsName, PyVal.asMotor, hcls, hen, htbl, hs, hl, hlim hl]
  · simp [pairStep, resolveMotorArg, PyVal.clsName, PyVal.asMotor, hcls, hen, htbl, hs, hl]

theorem pairStep_out_of_limits (env : Env) (m : Motor) (pv : PyVal) (q : ℚ)
    (hcls : m.cls ∈ limit_classes)
    (hen : ¬(m.cls = "MPEMotor" ∧ m.disable = 1))
    (hq : numVal pv = some q)
    (hout : q > m.high_limit_travel ∨ q < m.low_limit_travel) :
    pairStep env (.mot m) pv
      = .error (.valueError ("Position requested for " ++ m.name ++ " is out of limits.")) := by
  have hmc : m.cls ∈ motor_classes := limit_classes_subset m.cls hcls
  cases pv with
  | str s => simp [numVal] at hq
  | mot m2 => simp [numVal] at hq
  | int n =>
    simp only [numVal, Option.some.injEq] at hq
    subst hq
    simp [pairStep, resolveMotorArg, PyVal.clsName, PyVal.asMotor, hmc, hen, hcls, hout]
  | float q0 =>
    simp only [numVal, Option.some.injEq] at hq
    subst hq
    simp [pairStep, resolveMotorArg, PyVal.clsName, PyVal.asMotor, hmc, hen, hcls, hout]

theorem pairStep_disabled (env : Env) (m : Motor) (pv : PyVal)
    (hm : m.cls = "MPEMotor") (hd : m.disable = 1) :
    pairStep env (.mot m) pv = .error (.valueError (m.name ++ " is not enabled!")) := by
  have hmem : "MPEMotor" ∈ motor_classes := by decide
  simp [pairStep, resolveMotorArg, PyVal.clsName, PyVal.asMotor, hmem, hm, hd]

theorem pairStep_bad_position (env : Env) (m m2 : Motor)
    (hcls : m.cls ∈ motor_classes)
    (hen : ¬(m.cls = "MPEMotor" ∧ m.disable = 1)) :
    pairStep env (.mot m) (.mot m2) = .error (.typeError "Position type not recognized.") := by
  simp [pairStep, resolveMotorArg, PyVal.clsName, PyVal.asMotor, hcls, hen]

theorem move_single (env : Env) (a b : PyVal) :
    move env [a, b] = movePairs env [(a, b)] := by
  simp [move, pairup]

theorem move_single_ok (env : Env) (a b : PyVal) (i : Instr)
    (h : pairStep env a b = .ok i) : move env [a, b] = ([i], none) := by
  rw [move_single]
  simp [movePairs, h]

theorem move_single_error (env : Env) (a b : PyVal) (e : PyError)
    (h : pairStep env a b = .error e) : move env [a, b] = ([], some e) := by
  rw [move_single]
  simp [movePairs, h]

theorem movePairs_head_error (env : Env) (a b : PyVal) (e : PyError)
    (rest : List (PyVal × PyVal)) (h : pairStep env a b = .error e) :
    movePairs env ((a, b) :: rest) = ([], some e) := by
  simp [movePairs, h]

theorem movePairs_append_ok (env : Env) (ps : List (PyVal × PyVal)) (is : List Instr)
    (qs : List (PyVal × PyVal)) (h : stepAll env ps = .ok is) :
    movePairs env (ps ++ qs) = (is ++ (movePairs env qs).1, (movePairs env qs).2) := by
  induction ps generalizing is with
  | nil =>
    simp only [stepAll] at h
    obtain rfl : [] = is := by simpa using h
    simp
  | cons hd tl ih =>
    obtain ⟨a, b⟩ := hd
    simp only [stepAll] at h
    cases hps : pairStep env a b with
    | error e => rw [hps] at h; exact absurd h (by simp)
    | ok i =>
      rw [hps] at h
      cases hta : stepAll env tl with
      | error e => rw [hta] at h; exact absurd h (by simp)
      | ok is0 =>
        rw [hta] at h
        obtain rfl : i :: is0 = is := by simpa using h
        simp [movePairs, hps, ih is0 hta]

theorem flattenPairs_length (l : List (PyVal × PyVal)) :
    (flattenPairs l).length = 2 * l.length := by
  induction l with
  | nil => rfl
  | cons hd tl ih =>
    simp only [flattenPairs, List.foldr_cons, List.length_cons] at *
    omega

theorem pairup_flattenPairs (l : List (PyVal × PyVal)) : pairup (flattenPairs l) = l := by
  induction l with
  | nil => rfl
  | cons hd tl ih =>
    obtain ⟨a, b⟩ := hd
    simp only [flattenPairs, List.foldr_cons] at *
    simp [pairup, ih]

/-! Lemmas about the formatting loops of `add_config`, `change_order` and
`delete_motor`. -/

theorem dmerge_cons {α : Type} (a : List (String × α)) (p : String × α)
    (tl : List (String × α)) : dmerge a (p :: tl) = dmerge (dinsert a p.1 p.2) tl := by
  simp [dmerge]

theorem formatEntry_ok (k v : PyVal)
    (hk : k.clsName ∈ config_classes ∨ ∃ s, k = PyVal.str s)
    (hv : (numVal v).isSome) :
    formatEntry k v = .ok (fmtName k, v) := by
  have hvcls : v.clsName ∈ ["float", "int"] := by
    cases v <;> simp [numVal] at hv <;> simp [PyVal.clsName]
  cases k with
  | str s =>
    rw [formatEntry, if_pos hvcls]
    simp [PyVal.clsName, config_classes, fmtName]
  | int n =>
    rcases hk with hk | ⟨s, h⟩
    · exact absurd hk (by simp [PyVal.clsName, config_classes])
    · exact absurd h (by simp)
  | float q =>
    rcases hk with hk | ⟨s, h⟩
    · exact absurd hk (by simp [PyVal.clsName, config_classes])
    · exact absurd h (by simp)
  | mot m =>
    rcases hk with hk | ⟨s, h⟩
    · have hred : formatEntry (PyVal.mot m) v
          = if v.clsName ∈ ["float", "int"] then
              if (PyVal.mot m).clsName ∈ config_classes then
                Except.ok ((PyVal.mot m).asMotor.name, v)
              else if (PyVal.mot m).clsName = "str" then
                Except.error (PyError.typeError "Motor must be an object or string.")
              else Except.error (PyError.typeError "Motor must be an object or string.")
            else Except.error (PyError.typeError "Position must be a float or int.") := rfl
      rw [hred, if_pos hvcls, if_pos hk]
      rfl
    · exact absurd h (by simp)

theorem formatDict_ok (new_dict : List (PyVal × PyVal)) (acc : Config)
    (hkeys : ∀ p ∈ new_dict, p.1.clsName ∈ config_classes ∨ ∃ s, p.1 = PyVal.str s)
    (hvals : ∀ p ∈ new_dict, (numVal p.2).isSome) :
    formatDict acc new_dict
      = .ok (new_dict.foldl (fun a p => dinsert a (fmtName p.1) p.2) acc) := by
  induction new_dict generalizing acc with
  | nil => rfl
  | cons hd tl ih =>
    obtain ⟨k, v⟩ := hd
    have hfe := formatEntry_ok k v (hkeys (k, v) (List.mem_cons_self _ _))
      (hvals (k, v) (List.mem_cons_self _ _))
    simp only [formatDict, hfe, List.foldl_cons]
    exact ih (dinsert acc (fmtName k) v)
      (fun p hp => hkeys p (List.mem_cons_of_mem _ hp))
      (fun p hp => hvals p (List.mem_cons_of_mem _ hp))

theorem dkeys_dmerge_nodup {α : Type} (b a : List (String × α))
    (h : (dkeys a).Nodup) : (dkeys (dmerge a b)).Nodup := by
  induction b generalizing a with
  | nil => exact h
  | cons hd tl ih =>
    rw [dmerge_cons]
    exact ih _ (dkeys_dinsert_nodup a hd.1 hd.2 h)

theorem dkeys_dinsert_fresh {α : Type} (d : List (String × α)) (k : String) (v : α)
    (h : k ∉ dkeys d) : dkeys (dinsert d k v) = dkeys d ++ [k] := by
  induction d with
  | nil => simp [dinsert, dkeys]
  | cons hd tl ih =>
    obtain ⟨k0, v0⟩ := hd
    simp only [dkeys, List.map_cons, List.mem_cons] at h
    push_neg at h
    rw [dinsert, if_neg (Ne.symm h.1)]
    have htl : k ∉ dkeys tl := by simpa [dkeys] using h.2
    simp only [dkeys, List.map_cons]
    rw [show List.map Prod.fst (dinsert tl k v) = dkeys (dinsert tl k v) from rfl, ih htl]
    simp [dkeys]

theorem dkeys_dmerge_fresh {α : Type} (b a : List (String × α))
    (hnd : (dkeys b).Nodup) (hdisj : ∀ k ∈ dkeys b, k ∉ dkeys a) :
    dkeys (dmerge a b) = dkeys a ++ dkeys b := by
  induction b generalizing a with
  | nil => simp [dmerge, dkeys]
  | cons hd tl ih =>
    obtain ⟨k0, v0⟩ := hd
    simp only [dkeys, List.map_cons, List.nodup_cons] at hnd
    have hk0 : k0 ∉ dkeys a := hdisj k0 (List.mem_cons_self _ _)
    have hdisj2 : ∀ k ∈ dkeys tl, k ∉ dkeys (dinsert a k0 v0) := by
      intro k hk
      rw [dkeys_dinsert_fresh a k0 v0 hk0]
      simp only [List.mem_append, List.mem_singleton]
      push_neg
      refine ⟨hdisj k (List.mem_cons_of_mem _ hk), ?_⟩
      intro he
      subst he
      exact hnd.1 hk
    rw [dmerge_cons, ih (dinsert a k0 v0) hnd.2 hdisj2, dkeys_dinsert_fresh a k0 v0 hk0]
    simp [dkeys]

theorem orderName_ok (v : PyVal)
    (h : v.clsName ∈ config_classes ∨ ∃ s, v = PyVal.str s) :
    orderName v = .ok (fmtName v) := by
  cases v with
  | str s =>
    rw [orderName, if_neg (by simp [PyVal.clsName, config_classes]),
      if_pos (show (PyVal.str s).clsName = "str" from rfl)]
    rfl
  | int n =>
    rcases h with h | ⟨s, h2⟩
    · exact absurd h (by simp [PyVal.clsName, config_classes])
    · exact absurd h2 (by simp)
  | float q =>
    rcases h with h | ⟨s, h2⟩
    · exact absurd h (by simp [PyVal.clsName, config_classes])
    · exact absurd h2 (by simp)
  | mot m =>
    rcases h with h | ⟨s, h2⟩
    · have hred : orderName (PyVal.mot m)
          = if (PyVal.mot m).clsName ∈ config_classes then
              Except.ok (PyVal.mot m).asMotor.name
            else if (PyVal.mot m).clsName = "str" then
              Except.error (PyError.typeError "Motor must be an object or string.")
            else Except.error (PyError.typeError "Motor must be an object or string.") := rfl
      rw [hred, if_pos h]
      rfl
    · exact absurd h2 (by simp)

theorem buildOrdered_eq (cfg : Config) (lst : List PyVal) (acc : Config)
    (hcls : ∀ v ∈ lst, v.clsName ∈ config_classes ∨ ∃ s, v = PyVal.str s)
    (hmem : ∀ v ∈ lst, fmtName v ∈ dkeys cfg) :
    buildOrdered cfg acc lst
      = .ok (dmerge acc (lst.map (fun v =>
          (fmtName v, (dlookup cfg (fmtName v)).getD (PyVal.int 0))))) := by
  induction lst generalizing acc with
  | nil => rfl
  | cons hd tl ih =>
    have hon := orderName_ok hd (hcls hd (List.mem_cons_self _ _))
    have hmem0 := hmem hd (List.mem_cons_self _ _)
    obtain ⟨q, hq⟩ : ∃ q, dlookup cfg (fmtName hd) = some q := by
      rcases ho : dlookup cfg (fmtName hd) with _ | q
      · exact absurd hmem0 ((dlookup_eq_none_iff cfg (fmtName hd)).mp ho)
      · exact ⟨q, rfl⟩
    simp only [buildOrdered, hon, hq, List.map_cons, dmerge_cons, Option.getD_some]
    exact ih (dinsert acc (fmtName hd) q) (fun v hv => hcls v (List.mem_cons_of_mem _ hv))
      (fun v hv => hmem v (List.mem_cons_of_mem _ hv))

theorem buildOrdered_missing (cfg : Config) (lst : List PyVal) (acc : Config)
    (hcls : ∀ v ∈ lst, v.clsName ∈ config_classes ∨ ∃ s, v = PyVal.str s)
    (hbad : ∃ v ∈ lst, fmtName v ∉ dkeys cfg) :
    buildOrdered cfg acc lst
      = .error (.valueError "Received unexpected motor. Use add_config to add motors first.") := by
  induction lst generalizing acc with
  | nil => simp at hbad
  | cons hd tl ih =>
    have hon := orderName_ok hd (hcls hd (List.mem_cons_self _ _))
    by_cases hh : fmtName hd ∈ dkeys cfg
    · obtain ⟨q, hq⟩ : ∃ q, dlookup cfg (fmtName hd) = some q := by
        rcases ho : dlookup cfg (fmtName hd) with _ | q
        · exact absurd hh ((dlookup_eq_none_iff cfg (fmtName hd)).mp ho)
        · exact ⟨q, rfl⟩
      have hbad2 : ∃ v ∈ tl, fmtName v ∉ dkeys cfg := by
        rcases hbad with ⟨v, hv, hnv⟩
        rcases List.mem_cons.mp hv with rfl | hv2
        · exact absurd hh hnv
        · exact ⟨v, hv2, hnv⟩
      simp only [buildOrdered, hon, hq]
      exact ih (dinsert acc (fmtName hd) q)
        (fun v hv => hcls v (List.mem_cons_of_mem _ hv)) hbad2
    · have hnone : dlookup cfg (fmtName hd) = none := (dlookup_eq_none_iff cfg (fmtName hd)).mpr hh
      simp only [buildOrdered, hon, hnone]

theorem deleteMotorName_ok (motor : PyVal)
    (h : motor.clsName ∈ config_classes ∨ ∃ s, motor = PyVal.str s) :
    deleteMotorName motor = .ok (fmtName motor) := by
  rcases h with h | ⟨s, h2⟩
  · cases motor with
    | str s => rfl
    | int n => exact absurd h (by simp [PyVal.clsName, config_classes])
    | float q => exact absurd h (by simp [PyVal.clsName, config_classes])
    | mot m =>
      have hred : deleteMotorName (PyVal.mot m)
          = if (PyVal.mot m).clsName ∈ config_classes then
              Except.ok (PyVal.mot m).asMotor.name
            else Except.error (.typeError "Not an accepted object type.") := rfl
      rw [hred, if_pos h]
      rfl
  · subst h2
    rfl

theorem dlookup_map_pairs {α : Type} (names : List String) (g : String → α) (k : String) :
    dlookup (names.map (fun nm => (nm, g nm))) k
      = if k ∈ names then some (g k) else none := by
  induction names with
  | nil => simp [dlookup]
  | cons hd tl ih =>
    by_cases h : hd = k
    · subst h
      simp [dlookup, ih]
    · simp [dlookup, h, ih, Ne.symm h]

/-! Theorems settling the claims. -/

/-- C1: for every config_name present in the value of the configs signal whose
entries all validate (the registry object of each key is of an accepted motor
class, enabled when it is an MPEMotor, with a numeric stored position within
the travel limits when the class is limit-checked), switch_to yields exactly
one move instruction per motor of the configuration, iterating the entries in
dictionary insertion order, each moving the motor looked up in oregistry by
the key to the position stored as its value. -/
theorem C1_switch_to_success (env : Env) (CONFIGS : Configs) (config_name : String)
    (cfg : Config)
    (hc : dlookup CONFIGS config_name = some cfg)
    (hok : ∀ p ∈ cfg, entryOk env p.1 p.2 = true) :
    switch_to env CONFIGS config_name
      = (cfg.map (fun p => Instr.mv (env.oregistry p.1) ((numVal p.2).getD 0)), none) := by
  have main : ∀ c : Config, (∀ p ∈ c, entryOk env p.1 p.2 = true) →
      switchMoves env c
        = (c.map (fun p => Instr.mv (env.oregistry p.1) ((numVal p.2).getD 0)), none) := by
    intro c
    induction c with
    | nil => intro _; rfl
    | cons hd tl ih =>
      intro hall
      obtain ⟨nm, pos⟩ := hd
      have h1 := hall (nm, pos) (List.mem_cons_self _ _)
      simp only [entryOk, decide_eq_true_eq] at h1
      obtain ⟨hq1, hcls, hen, hlim⟩ := h1
      obtain ⟨q, hq⟩ := Option.isSome_iff_exists.mp hq1
      have hps : pairStep env (.mot (env.oregistry nm)) pos
          = .ok (.mv (env.oregistry nm) q) := by
        apply pairStep_mot_ok env _ pos q hcls hen hq
        intro hl
        have hb := hlim hl
        rw [hq] at hb
        simp only [Option.getD_some] at hb
        push_neg
        exact ⟨hb.2, hb.1⟩
      have hmv := move_single_ok env (.mot (env.oregistry nm)) pos _ hps
      simp only [switchMoves, hmv]
      rw [ih (fun p hp => hall p (List.mem_cons_of_mem _ hp))]
      simp [hq]
  have hs : switch_to env CONFIGS config_name = switchMoves env cfg := by
    simp only [switch_to, hc]
  rw [hs]
  exact main cfg hok

/-- Witness for C1 at a concrete two-motor configuration. -/
theorem C1_switch_to_success_witness :
    switch_to wEnv [("cfgA", [("a", PyVal.int 1), ("b", PyVal.float 2)])] "cfgA"
      = ([Instr.mv (wEnv.oregistry "a") 1, Instr.mv (wEnv.oregistry "b") 2], none) := by
  rw [C1_switch_to_success wEnv [("cfgA", [("a", PyVal.int 1), ("b", PyVal.float 2)])] "cfgA"
    [("a", PyVal.int 1), ("b", PyVal.float 2)] rfl (by decide)]
  norm_num [numVal]

/-- C4: switch_to raises KeyError whenever config_name is not a key of the
configs value, and yields no move instruction for any motor. -/
theorem C4_switch_to_unknown (env : Env) (CONFIGS : Configs) (config_name : String)
    (h : dlookup CONFIGS config_name = none) :
    switch_to env CONFIGS config_name
      = ([], some (.keyError ("config_name " ++ config_name ++ " not in CONFIGS."))) := by
  simp only [switch_to, h]

/-- Witness for C4 on the empty configs dictionary. -/
theorem C4_switch_to_unknown_witness :
    switch_to wEnv [] "tomoE"
      = ([], some (.keyError ("config_name " ++ "tomoE" ++ " not in CONFIGS."))) :=
  C4_switch_to_unknown wEnv [] "tomoE" rfl

/-- C6: move raises ValueError when called with an odd number of arguments and
yields no move instruction for any motor. -/
theorem C6_move_odd (env : Env) (args : List PyVal) (h : args.length % 2 = 1) :
    move env args
      = ([], some (.valueError "Each motor must contain a position to move to.")) := by
  rw [move, if_pos (by omega)]

/-- Witness for C6 on a one-argument call. -/
theorem C6_move_odd_witness :
    move wEnv [PyVal.int 0]
      = ([], some (.valueError "Each motor must contain a position to move to.")) :=
  C6_move_odd wEnv [PyVal.int 0] rfl

/-- C5: when the position argument of a pair is a string, the target is
resolved as the POSITIONS entry of the motor name at that string and the motor
is moved to that numeric value (given the motor passes the class and enable
checks and the resolved value is within limits when limit-checked); when the
position argument is neither a str, an int nor a float, move raises TypeError. -/
theorem C5_string_position (env : Env) (m m2 : Motor) (s : String)
    (tbl : List (String × ℚ)) (q : ℚ)
    (hcls : m.cls ∈ motor_classes)
    (hen : ¬(m.cls = "MPEMotor" ∧ m.disable = 1)) :
    ((dlookup env.POSITIONS m.name = some tbl) →
      (dlookup tbl s = some q) →
      (m.cls ∈ limit_classes → ¬(q > m.high_limit_travel ∨ q < m.low_limit_travel)) →
      move env [.mot m, .str s] = ([Instr.mv m q], none)) ∧
    move env [.mot m, .mot m2] = ([], some (.typeError "Position type not recognized.")) := by
  constructor
  · intro htbl hs hlim
    exact move_single_ok env _ _ _ (pairStep_str_ok env m s tbl q hcls hen htbl hs hlim)
  · exact move_single_error env _ _ _ (pairStep_bad_position env m m2 hcls hen)

/-- Witness for C5: the named position in of motor wm1 resolves to 3 through
the POSITIONS table, and a motor object passed as a position raises TypeError. -/
theorem C5_string_position_witness :
    move wEnv [PyVal.mot (wEnv.oregistry "wm1"), PyVal.str "in"]
      = ([Instr.mv (wEnv.oregistry "wm1") 3], none) ∧
    move wEnv [PyVal.mot (wEnv.oregistry "wm1"), PyVal.mot wMpe]
      = ([], some (.typeError "Position type not recognized.")) := by
  have h := C5_string_position wEnv (wEnv.oregistry "wm1") wMpe "in" [("in", (3 : ℚ))] 3
    (by decide) (by decide)
  exact ⟨h.1 rfl rfl (by decide), h.2⟩

/-- C7: an MPEMotor whose disable signal reads 1 makes move raise ValueError
with no move instruction yielded for it; enable_motor and disable_motor on an
MPEMotor yield a set of its disable signal to 0 and 1 respectively, and raise
ValueError for a motor of any other class. -/
theorem C7_enable_disable (env : Env) (m : Motor) (pv : PyVal) (hm : m.cls = "MPEMotor") :
    (m.disable = 1 →
      move env [.mot m, pv] = ([], some (.valueError (m.name ++ " is not enabled!")))) ∧
    enable_motor m = ([Instr.setDisable m.name 0], none) ∧
    disable_motor m = ([Instr.setDisable m.name 1], none) ∧
    ∀ m2 : Motor, m2.cls ≠ "MPEMotor" →
      enable_motor m2
          = ([], some (.valueError (m2.name ++ " does not have enable/disable PV known to bluesky."))) ∧
      disable_motor m2
          = ([], some (.valueError (m2.name ++ " does not have enable/disable PV known to bluesky."))) := by
  refine ⟨?_, ?_, ?_, ?_⟩
  · intro hd
    exact move_single_error env _ _ _ (pairStep_disabled env m pv hm hd)
  · simp [enable_motor, hm]
  · simp [disable_motor, hm]
  · intro m2 h2
    exact ⟨by simp [enable_motor, h2], by simp [disable_motor, h2]⟩

/-- Witness for C7 on the disabled motor wm2 and the ConicalMotor wc1. -/
theorem C7_enable_disable_witness :
    move wEnv [PyVal.mot wMpeOff, PyVal.int 4]
      = ([], some (.valueError (wMpeOff.name ++ " is not enabled!"))) ∧
    enable_motor wMpeOff = ([Instr.setDisable wMpeOff.name 0], none) ∧
    disable_motor wMpeOff = ([Instr.setDisable wMpeOff.name 1], none) ∧
    enable_motor wConical
      = ([], some (.valueError (wConical.name ++ " does not have enable/disable PV known to bluesky."))) := by
  have h := C7_enable_disable wEnv wMpeOff (PyVal.int 4) rfl
  exact ⟨h.1 rfl, h.2.1, h.2.2.1, (h.2.2.2 wConical (by decide)).1⟩

/-- C9: move validates each motor/position pair only when its own move is due,
so when the pair after a list of valid pairs fails, the instructions of the
valid prefix have already been yielded before the exception is raised. -/
theorem C9_move_partial_yields (env : Env) (ps : List (PyVal × PyVal)) (is : List Instr)
    (mArg pArg : PyVal) (e : PyError) (rest : List (PyVal × PyVal))
    (hok : stepAll env ps = .ok is)
    (hbad : pairStep env mArg pArg = .error e) :
    move env (flattenPairs (ps ++ (mArg, pArg) :: rest)) = (is, some e) := by
  have hlen : ¬((flattenPairs (ps ++ (mArg, pArg) :: rest)).length % 2 ≠ 0) := by
    rw [flattenPairs_length]
    omega
  rw [move, if_neg hlen, pairup_flattenPairs, movePairs_append_ok env ps is _ hok,
    movePairs_head_error env mArg pArg e rest hbad]
  simp

/-- Witness for C9: a valid move of wm1 is yielded before the disabled motor
wm2 raises. -/
theorem C9_move_partial_yields_witness :
    move wEnv (flattenPairs [(PyVal.mot wMpe, PyVal.int 1), (PyVal.mot wMpeOff, PyVal.int 0)])
      = ([Instr.mv wMpe 1], some (.valueError (wMpeOff.name ++ " is not enabled!"))) := by
  have h := C9_move_partial_yields wEnv [(PyVal.mot wMpe, PyVal.int 1)] [Instr.mv wMpe 1]
    (PyVal.mot wMpeOff) (PyVal.int 0) (.valueError (wMpeOff.name ++ " is not enabled!")) []
    (by rfl) (by rfl)
  exact h

/-- C3 counterexample: the MPEMotor wm2 has disable = 1 and travel limits
[-10, 10]; the requested position 0 is within the limits, yet move raises
ValueError (not enabled) and yields no move instruction, whereas the claim
asserts that a position within the limits yields the move. -/
theorem C3_counterexample :
    move wEnv [PyVal.mot wMpeOff, PyVal.float 0]
      = ([], some (.valueError "wm2 is not enabled!")) := by decide

/-- C3 (amended): for every motor of class MPEMotor, AMCIMotor or ConicalMotor
that is enabled when it is an MPEMotor, move raises ValueError when the numeric
position exceeds high_limit_travel or undercuts low_limit_travel, and otherwise
yields the move of that motor to that position; a disabled MPEMotor instead
raises ValueError regardless of the requested position. -/
theorem C3_limit_check (env : Env) (m : Motor) (pv : PyVal) (q : ℚ)
    (hcls : m.cls ∈ limit_classes)
    (hen : ¬(m.cls = "MPEMotor" ∧ m.disable = 1))
    (hq : numVal pv = some q) :
    (q > m.high_limit_travel ∨ q < m.low_limit_travel →
      move env [.mot m, pv]
        = ([], some (.valueError ("Position requested for " ++ m.name ++ " is out of limits.")))) ∧
    (¬(q > m.high_limit_travel ∨ q < m.low_limit_travel) →
      move env [.mot m, pv] = ([Instr.mv m q], none)) := by
  constructor
  · intro hout
    exact move_single_error env _ _ _ (pairStep_out_of_limits env m pv q hcls hen hq hout)
  · intro hin
    exact move_single_ok env _ _ _
      (pairStep_mot_ok env m pv q (limit_classes_subset m.cls hcls) hen hq (fun _ => hin))

/-- Witness for C3 (amended) on the enabled motor wm1 with limits [-10, 10]:
position 50 raises, position 5 moves. -/
theorem C3_limit_check_witness :
    move wEnv [PyVal.mot wMpe, PyVal.int 50]
      = ([], some (.valueError ("Position requested for " ++ wMpe.name ++ " is out of limits."))) ∧
    move wEnv [PyVal.mot wMpe, PyVal.int 5] = ([Instr.mv wMpe 5], none) := by
  constructor
  · exact (C3_limit_check wEnv wMpe (PyVal.int 50) 50 (by decide) (by decide) (by decide)).1
      (by decide)
  · have h := (C3_limit_check wEnv wMpe (PyVal.int 5) 5 (by decide) (by decide) (by decide)).2
      (by decide)
    exact h

/-- C2 counterexample: a ConicalMotor is one of the repository's motor classes
(it is in motor_classes and move accepts it), yet add_config raises TypeError
on a ConicalMotor key instead of replacing the key by the object's name and
adding the configuration. -/
theorem C2_counterexample :
    add_config [] [(PyVal.mot wConical, PyVal.int 5)] "newcfg" true
      = ([], some (.typeError "Motor must be an object or string.")) := by decide

/-- C2 (amended): for new_dict whose keys are strings or objects of the classes
accepted by add_config (MPEMotor, AMCIMotor, PVPositionerSoftDone,
ApsPssShutterWithStatus, EpicsSignal - any other object key, ConicalMotor
included, raises TypeError) and whose values are ints or floats: object keys
are replaced by the object's name and string keys are kept as-is; if new_name
is new, the formatted dictionary is added under it; if new_name exists and
overwrite is true, the formatted dictionary is merged in with the new values
taking precedence on common keys; if new_name exists and overwrite is false,
only the keys absent from the existing configuration are added and every
already-present key keeps its old value. -/
theorem C2_add_config (CONFIGS : Configs) (new_dict : List (PyVal × PyVal))
    (new_name : String) (overwrite : Bool)
    (hkeys : ∀ p ∈ new_dict, p.1.clsName ∈ config_classes ∨ ∃ s, p.1 = PyVal.str s)
    (hvals : ∀ p ∈ new_dict, (numVal p.2).isSome) :
    ∃ fd newcfg CONFIGS1,
      formatDict [] new_dict = .ok fd ∧
      fd = new_dict.foldl (fun a p => dinsert a (fmtName p.1) p.2) [] ∧
      add_config CONFIGS new_dict new_name overwrite = ([Instr.setConfigs CONFIGS1], none) ∧
      dlookup CONFIGS1 new_name = some newcfg ∧
      (dlookup CONFIGS new_name = none → newcfg = fd) ∧
      (∀ old, dlookup CONFIGS new_name = some old →
        (overwrite = true →
          (∀ k v, dlookup fd k = some v → dlookup newcfg k = some v) ∧
          (∀ k, dlookup fd k = none → dlookup newcfg k = dlookup old k)) ∧
        (overwrite = false →
          (∀ k v, dlookup old k = some v → dlookup newcfg k = some v) ∧
          (∀ k, dlookup old k = none → dlookup newcfg k = dlookup fd k))) := by
  have hfd := formatDict_ok new_dict [] hkeys hvals
  set fd := new_dict.foldl (fun a p => dinsert a (fmtName p.1) p.2) ([] : Config) with hfddef
  have hfd2 : fd = dmerge [] (new_dict.map (fun p => (fmtName p.1, p.2))) := by
    simp [dmerge, List.foldl_map, hfddef]
  have hnd : (dkeys fd).Nodup := by
    rw [hfd2]
    exact dkeys_dmerge_nodup _ [] (by simp [dkeys])
  cases hold : dlookup CONFIGS new_name with
  | none =>
    refine ⟨fd, fd, dinsert CONFIGS new_name fd, hfd, rfl, ?_, ?_, ?_, ?_⟩
    · simp only [add_config, hfd, hold]
    · exact dlookup_dinsert_self CONFIGS new_name fd
    · intro _
      rfl
    · intro old h
      exact absurd h (by simp)
  | some old0 =>
    cases overwrite with
    | true =>
      refine ⟨fd, dmerge old0 fd, dinsert CONFIGS new_name (dmerge old0 fd), hfd, rfl, ?_, ?_, ?_, ?_⟩
      · simp [add_config, hfd, hold]
      · exact dlookup_dinsert_self _ _ _
      · intro hnone
        exact absurd hnone (by simp)
      · intro old hsome
        obtain rfl : old0 = old := Option.some.inj hsome
        refine ⟨fun _ => ⟨?_, ?_⟩, fun hfalse => absurd hfalse (by simp)⟩
        · intro k v hv
          exact dlookup_dmerge_mem fd old0 k v hnd hv
        · intro k hk
          exact dlookup_dmerge_notin fd old0 k ((dlookup_eq_none_iff fd k).mp hk)
    | false =>
      refine ⟨fd, mergeKeep old0 fd, dinsert CONFIGS new_name (mergeKeep old0 fd), hfd, rfl, ?_, ?_, ?_, ?_⟩
      · simp [add_config, hfd, hold]
      · exact dlookup_dinsert_self _ _ _
      · intro hnone
        exact absurd hnone (by simp)
      · intro old hsome
        obtain rfl : old0 = old := Option.some.inj hsome
        refine ⟨fun htrue => absurd htrue (by simp), fun _ => ⟨?_, ?_⟩⟩
        · intro k v hv
          exact dlookup_mergeKeep_mem old0 fd k v hv
        · intro k hk
          exact dlookup_mergeKeep_none old0 fd k hk

/-- Witness for C2 (amended): merging an object-keyed and a string-keyed entry
into an existing configuration with overwrite. -/
theorem C2_add_config_witness :
    ∃ newcfg CONFIGS1,
      add_config [("c", [("a", PyVal.int 1)])]
          [(PyVal.mot wMpe, PyVal.int 5), (PyVal.str "a", PyVal.float 9)] "c" true
        = ([Instr.setConfigs CONFIGS1], none) ∧
      dlookup CONFIGS1 "c" = some newcfg ∧
      dlookup newcfg "wm1" = some (PyVal.int 5) ∧
      dlookup newcfg "a" = some (PyVal.float 9) := by
  obtain ⟨fd, newcfg, CONFIGS1, h1, h2, h3, h4, h5, h6⟩ :=
    C2_add_config [("c", [("a", PyVal.int 1)])]
      [(PyVal.mot wMpe, PyVal.int 5), (PyVal.str "a", PyVal.float 9)] "c" true
      (by simp [PyVal.clsName, config_classes, wMpe]) (by decide)
  have h7 := (h6 [("a", PyVal.int 1)] rfl).1 rfl
  refine ⟨newcfg, CONFIGS1, h3, h4, ?_, ?_⟩
  · refine h7.1 "wm1" (PyVal.int 5) ?_
    rw [h2]
    decide
  · refine h7.1 "a" (PyVal.float 9) ?_
    rw [h2]
    decide

/-- C8 counterexample: for the configuration c with entries a = 1 and b = 2,
change_order with new_order listing a twice passes every check (it is a list,
the config exists, the lengths agree, every element is an existing key) and
succeeds, but the resulting configuration has lost the key b, whereas the
claim promises extensional equality after every successful call. -/
theorem C8_counterexample :
    change_order [("c", [("a", PyVal.int 1), ("b", PyVal.int 2)])]
        (.list [PyVal.str "a", PyVal.str "a"]) "c"
      = ([Instr.setConfigs [("c", [("a", PyVal.int 1)])]], none) ∧
    dlookup [("a", PyVal.int 1), ("b", PyVal.int 2)] "b" = some (PyVal.int 2) ∧
    dlookup [("a", PyVal.int 1)] "b" = none := by decide

/-- C8 (amended): change_order raises on a non-list argument, an unknown
config name, a length mismatch, or an element that is not an existing key of
the configuration; and when every element is a string or accepted motor object
naming an existing key, the lengths agree and additionally the listed names
are pairwise distinct, it succeeds and the configuration keeps exactly its
previous key-value pairs with the key order changed to match new_order (with
duplicate names in new_order, the call still succeeds but keys are dropped, as
the counterexample shows). -/
theorem C8_change_order (CONFIGS : Configs) (lst : List PyVal) (config_name : String)
    (cls : String) :
    change_order CONFIGS (.nonlist cls) config_name
        = ([], some (.typeError "new_order must be a list.")) ∧
    (dlookup CONFIGS config_name = none →
      change_order CONFIGS (.list lst) config_name
        = ([], some (.valueError "Received unknown config name."))) ∧
    (∀ cfg, dlookup CONFIGS config_name = some cfg → lst.length ≠ cfg.length →
      change_order CONFIGS (.list lst) config_name
        = ([], some (.valueError "Not all motors are included."))) ∧
    (∀ cfg, dlookup CONFIGS config_name = some cfg → lst.length = cfg.length →
      (∀ v ∈ lst, v.clsName ∈ config_classes ∨ ∃ s, v = PyVal.str s) →
      (∃ v ∈ lst, fmtName v ∉ dkeys cfg) →
      change_order CONFIGS (.list lst) config_name
        = ([], some (.valueError "Received unexpected motor. Use add_config to add motors first."))) ∧
    (∀ cfg, dlookup CONFIGS config_name = some cfg → (dkeys cfg).Nodup →
      lst.length = cfg.length →
      (∀ v ∈ lst, v.clsName ∈ config_classes ∨ ∃ s, v = PyVal.str s) →
      (∀ v ∈ lst, fmtName v ∈ dkeys cfg) →
      (lst.map fmtName).Nodup →
      ∃ ordered,
        change_order CONFIGS (.list lst) config_name
          = ([Instr.setConfigs (dinsert (derase CONFIGS config_name) config_name ordered)], none) ∧
        dkeys ordered = lst.map fmtName ∧
        ∀ k, dlookup ordered k = dlookup cfg k) := by
  refine ⟨rfl, ?_, ?_, ?_, ?_⟩
  · intro h
    simp only [change_order, h]
  · intro cfg hc hne
    simp only [change_order, hc]
    rw [if_pos hne]
  · intro cfg hc hlen hcls hbad
    simp only [change_order, hc]
    rw [if_neg (by simp [hlen]), buildOrdered_missing cfg lst [] hcls hbad]
  · intro cfg hc hcfgnd hlen hcls hmem hnodup
    have hbo := buildOrdered_eq cfg lst [] hcls hmem
    set ps := lst.map (fun v => (fmtName v, (dlookup cfg (fmtName v)).getD (PyVal.int 0)))
      with hpsdef
    have hps2 : ps = (lst.map fmtName).map
        (fun nm => (nm, (dlookup cfg nm).getD (PyVal.int 0))) := by
      rw [hpsdef, List.map_map]
      rfl
    have hkeysps : dkeys ps = lst.map fmtName := by
      rw [hps2]
      simp [dkeys, List.map_map]
    have hndps : (dkeys ps).Nodup := by
      rw [hkeysps]
      exact hnodup
    refine ⟨dmerge [] ps, ?_, ?_, ?_⟩
    · simp only [change_order, hc]
      rw [if_neg (by simp [hlen]), hbo]
    · rw [dkeys_dmerge_fresh ps [] hndps (by intro k _; simp [dkeys]), hkeysps]
      rfl
    · intro k
      by_cases hkmem : k ∈ lst.map fmtName
      · have hkcfg : k ∈ dkeys cfg := by
          obtain ⟨v, hv, rfl⟩ := List.mem_map.mp hkmem
          exact hmem v hv
        obtain ⟨qv, hqv⟩ : ∃ qv, dlookup cfg k = some qv := by
          rcases ho : dlookup cfg k with _ | qv
          · exact absurd hkcfg ((dlookup_eq_none_iff cfg k).mp ho)
          · exact ⟨qv, rfl⟩
        have hlps : dlookup ps k = some qv := by
          rw [hps2, dlookup_map_pairs, if_pos hkmem, hqv]
          rfl
        rw [dlookup_dmerge_mem ps [] k qv hndps hlps, hqv]
      · have hnps : k ∉ dkeys ps := by
          rw [hkeysps]
          exact hkmem
        rw [dlookup_dmerge_notin ps [] k hnps]
        have hperm : (lst.map fmtName).Perm (dkeys cfg) := by
          apply List.Subperm.perm_of_length_le
          · apply List.subperm_of_subset hnodup
            intro x hx
            obtain ⟨v, hv, rfl⟩ := List.mem_map.mp hx
            exact hmem v hv
          · simp only [dkeys, List.length_map]
            omega
        have hkn : k ∉ dkeys cfg := fun hk => hkmem (hperm.mem_iff.mpr hk)
        rw [(dlookup_eq_none_iff cfg k).mpr hkn]
        rfl

/-- Witness for C8 (amended): reordering the two-entry configuration c with
the distinct names b, a. -/
theorem C8_change_order_witness :
    ∃ ordered,
      change_order [("c", [("a", PyVal.int 1), ("b", PyVal.int 2)])]
          (.list [PyVal.str "b", PyVal.str "a"]) "c"
        = ([Instr.setConfigs
            (dinsert (derase [("c", [("a", PyVal.int 1), ("b", PyVal.int 2)])] "c") "c" ordered)],
           none) ∧
      dkeys ordered = ["b", "a"] ∧
      ∀ k, dlookup ordered k = dlookup [("a", PyVal.int 1), ("b", PyVal.int 2)] k := by
  obtain ⟨ordered, h1, h2, h3⟩ :=
    (C8_change_order [("c", [("a", PyVal.int 1), ("b", PyVal.int 2)])]
        [PyVal.str "b", PyVal.str "a"] "c" "int").2.2.2.2
      [("a", PyVal.int 1), ("b", PyVal.int 2)] rfl (by decide) rfl
      (by simp) (by decide) (by decide)
  refine ⟨ordered, h1, ?_, h3⟩
  simpa [fmtName] using h2

/-- C10 counterexample: for the configuration c containing the ConicalMotor
wc1, delete_motor called with the ConicalMotor object raises TypeError (the
accepted-class list of delete_motor omits ConicalMotor) and does not remove
the entry, whereas the claim promises removal whenever the config exists and
the motor name is present. -/
theorem C10_counterexample :
    delete_motor [("c", [("wc1", PyVal.int 1)])] (PyVal.mot wConical) "c"
      = ([], some (.typeError "Not an accepted object type.")) := by decide

/-- C10 (amended): delete_config raises KeyError on an unknown config name and
otherwise removes exactly that configuration leaving the others unchanged;
delete_motor, for a motor given as a string or as an object of one of the
accepted classes (MPEMotor, AMCIMotor, PVPositionerSoftDone,
ApsPssShutterWithStatus, EpicsSignal - other objects such as a ConicalMotor
raise TypeError instead), raises KeyError when the config name is unknown or
the motor name is absent from it, and otherwise removes exactly that one
entry, leaving the other entries of the configuration and all other
configurations unchanged. -/
theorem C10_delete (CONFIGS : Configs) (config_name : String) (motor : PyVal) :
    (dlookup CONFIGS config_name = none →
      delete_config CONFIGS config_name = ([], some (.keyError config_name))) ∧
    (∀ cfg, dlookup CONFIGS config_name = some cfg → (dkeys CONFIGS).Nodup →
      delete_config CONFIGS config_name
          = ([Instr.setConfigs (derase CONFIGS config_name)], none) ∧
      dlookup (derase CONFIGS config_name) config_name = none ∧
      ∀ c, c ≠ config_name → dlookup (derase CONFIGS config_name) c = dlookup CONFIGS c) ∧
    ((motor.clsName ∈ config_classes ∨ ∃ s, motor = PyVal.str s) →
      (dlookup CONFIGS config_name = none →
        delete_motor CONFIGS motor config_name = ([], some (.keyError config_name))) ∧
      (∀ cfg, dlookup CONFIGS config_name = some cfg →
        dlookup cfg (fmtName motor) = none →
        delete_motor CONFIGS motor config_name = ([], some (.keyError (fmtName motor)))) ∧
      (∀ cfg, dlookup CONFIGS config_name = some cfg → (dkeys cfg).Nodup →
        ∀ pv, dlookup cfg (fmtName motor) = some pv →
        delete_motor CONFIGS motor config_name
            = ([Instr.setConfigs (dinsert CONFIGS config_name (derase cfg (fmtName motor)))],
               none) ∧
        dlookup (derase cfg (fmtName motor)) (fmtName motor) = none ∧
        (∀ k, k ≠ fmtName motor → dlookup (derase cfg (fmtName motor)) k = dlookup cfg k) ∧
        dlookup (dinsert CONFIGS config_name (derase cfg (fmtName motor))) config_name
            = some (derase cfg (fmtName motor)) ∧
        (∀ c, c ≠ config_name →
          dlookup (dinsert CONFIGS config_name (derase cfg (fmtName motor))) c
              = dlookup CONFIGS c))) := by
  refine ⟨?_, ?_, ?_⟩
  · intro h
    simp only [delete_config, h]
  · intro cfg hc hnd
    refine ⟨by simp only [delete_config, hc], dlookup_derase_self CONFIGS config_name hnd, ?_⟩
    intro c hne
    exact dlookup_derase_ne CONFIGS config_name c (Ne.symm hne)
  · intro hcls
    have hdm := deleteMotorName_ok motor hcls
    refine ⟨?_, ?_, ?_⟩
    · intro h
      simp only [delete_motor, hdm, h]
    · intro cfg hc hnone
      simp only [delete_motor, hdm, hc, hnone]
    · intro cfg hc hnd pv hpv
      refine ⟨by simp only [delete_motor, hdm, hc, hpv], ?_, ?_, ?_, ?_⟩
      · exact dlookup_derase_self cfg (fmtName motor) hnd
      · intro k hne
        exact dlookup_derase_ne cfg (fmtName motor) k (Ne.symm hne)
      · exact dlookup_dinsert_self CONFIGS config_name _
      · intro c hne
        exact dlookup_dinsert_ne CONFIGS config_name c _ (Ne.symm hne)

/-- Witness for C10 (amended): deleting the configuration c and deleting the
motor wm1 from it by name. -/
theorem C10_delete_witness :
    delete_config [("c", [("wm1", PyVal.int 1), ("x", PyVal.int 2)]), ("d", [])] "c"
        = ([Instr.setConfigs [("d", [])]], none) ∧
    delete_motor [("c", [("wm1", PyVal.int 1), ("x", PyVal.int 2)]), ("d", [])]
        (PyVal.str "wm1") "c"
        = ([Instr.setConfigs [("c", [("x", PyVal.int 2)]), ("d", [])]], none) := by
  have h := C10_delete [("c", [("wm1", PyVal.int 1), ("x", PyVal.int 2)]), ("d", [])] "c"
    (PyVal.str "wm1")
  constructor
  · exact ((h.2.1 [("wm1", PyVal.int 1), ("x", PyVal.int 2)] rfl (by decide)).1).trans (by decide)
  · have h3 := (h.2.2 (Or.inr ⟨"wm1", rfl⟩)).2.2 [("wm1", PyVal.int 1), ("x", PyVal.int 2)]
      rfl (by decide) (PyVal.int 1) (by decide)
    exact h3.1.trans (by decide)
